import Mathlib

/-
Verification of the nprt propagation-checking engine (internal/core,
internal/config, internal/github) against its specification.

The Go source is shallowly embedded: pure functions become Lean functions;
the RepositoryHost collaborator (HTTP calls) is passed in as an explicit
oracle argument; Go errors become an explicit error type whose rendered
messages follow the fmt.Errorf format strings in the source.  Go's
sort.SliceStable is modelled by List.mergeSort with the complement of the
Go less function (for a strict weak order, every stable sort produces the
same permutation, so this is faithful).  Logging calls are side effects and
are dropped from the value-level embedding; the one observable hazard in a
log call (the MergeCommitSHA[:12] slice bound in CheckPR) is modelled
separately by checkPRDebugSliceOk.
-/

namespace Nprt

/-! ## Data model (internal/core/core.go, internal/config) -/

/-- ChannelStatus from core.go: present / not_present / unknown. -/
inductive ChannelStatus where
  | present
  | notPresent
  | unknown
  deriving DecidableEq, Repr

/-- PRState from core.go: draft / open / merged / closed. -/
inductive PRState where
  | draft
  | open
  | merged
  | closed
  deriving DecidableEq, Repr

/-- Channel from internal/config: a named branch used as a release channel. -/
structure Channel where
  name : String
  branch : String
  deriving DecidableEq, Repr

/-- ChannelResult from core.go: propagation status for a single channel. -/
structure ChannelResult where
  name : String
  branch : String
  status : ChannelStatus
  error : String := ""
  deriving DecidableEq, Repr

/-- PullRequest from internal/github/client.go (flattened nested User/Base). -/
structure PullRequest where
  number : Int
  title : String
  state : String
  draft : Bool
  merged : Bool
  mergeCommitSHA : String
  userLogin : String
  baseRef : String
  deriving DecidableEq, Repr

/-- PRStatus from core.go: the full report for a PR. -/
structure PRStatus where
  number : Int
  title : String
  author : String
  state : PRState
  mergeCommit : String
  channels : List ChannelResult
  deriving DecidableEq, Repr

/-- CompareResult from internal/github/client.go. -/
structure CompareResult where
  status : String
  aheadBy : Int
  behindBy : Int
  deriving DecidableEq, Repr

/-- The error type produced by the GitHub client functions that CheckPR's
channel checks consume.  Each constructor corresponds to one fmt.Errorf /
APIError site in client.go; render gives the Error() string. -/
inductive GHError where
  | apiError (statusCode : Int) (message : String)
  | requestCreateFailed (msg : String)
  | networkError (msg : String)
  | readFailed (msg : String)
  | parseFailed (what : String) (msg : String)
  deriving DecidableEq, Repr

/-- The Error() rendering of GHError, following the format strings in
client.go (APIError.Error and the fmt.Errorf wrappers in doRequest and
CompareCommitWithBranch). -/
def GHError.render : GHError → String
  | .apiError code m => "GitHub API error (status " ++ toString code ++ "): " ++ m
  | .requestCreateFailed m => "failed to create request: " ++ m
  | .networkError m => "network error talking to GitHub: " ++ m
  | .readFailed m => "failed to read response: " ++ m
  | .parseFailed what m => "failed to parse " ++ what ++ " response: " ++ m

/-! ## SortChannelResults (core.go lines 165-179)

Go sorts with sort.SliceStable and the less function below.  A stable sort
by a strict-weak-order less function is uniquely determined, so we embed it
as List.mergeSort with the complement order. -/

/-- The less function passed to sort.SliceStable in SortChannelResults. -/
def crLess (a b : ChannelResult) : Bool :=
  let isPresentI := a.status == ChannelStatus.present
  let isPresentJ := b.status == ChannelStatus.present
  if isPresentI != isPresentJ then isPresentI
  else if !isPresentI then decide (a.name < b.name)
  else false

/-- The non-strict order used for the stable merge sort: a may stay before b. -/
def crLE (a b : ChannelResult) : Bool := !crLess b a

/-- SortChannelResults from core.go: stable sort placing present channels
first in input order, then the rest alphabetically by name. -/
def SortChannelResults (results : List ChannelResult) : List ChannelResult :=
  results.mergeSort crLE

/-! ## CheckPR (core.go lines 66-160) -/

/-- determinePRState from core.go. -/
def determinePRState (pr : PullRequest) : PRState :=
  if pr.merged then .merged
  else if pr.draft then .draft
  else if pr.state = "open" then .open
  else .closed

/-- checkChannel from core.go: one compare call for one channel.  The
CompareCommitWithBranch call is the oracle argument. -/
def checkChannel (compare : String → String → Except GHError CompareResult)
    (commit : String) (ch : Channel) : ChannelResult :=
  match compare commit ch.branch with
  | .error e =>
      { name := ch.name, branch := ch.branch, status := .unknown, error := e.render }
  | .ok cmp =>
      if cmp.behindBy = 0 then
        { name := ch.name, branch := ch.branch, status := .present, error := "" }
      else
        { name := ch.name, branch := ch.branch, status := .notPresent, error := "" }

/-- CheckPR from core.go, after the PR fetch has succeeded (the fetched PR
is passed in; the fetch itself is GetPullRequest, embedded below).  The
parallel per-channel fan-out writes each result into its own index slot, so
its join is the index-preserving map below. -/
def CheckPR (compare : String → String → Except GHError CompareResult)
    (pr : PullRequest) (channels : List Channel) : Except String PRStatus :=
  let base : PRStatus :=
    { number := pr.number, title := pr.title, author := pr.userLogin,
      state := determinePRState pr, mergeCommit := pr.mergeCommitSHA, channels := [] }
  if !pr.merged then
    .ok { base with
          channels := SortChannelResults (channels.map fun ch =>
            { name := ch.name, branch := ch.branch, status := .notPresent, error := "" }) }
  else if pr.mergeCommitSHA = "" then
    .error ("PR #" ++ toString pr.number ++ " has no merge commit SHA")
  else
    .ok { base with
          channels := SortChannelResults (channels.map (checkChannel compare pr.mergeCommitSHA)) }

/-- The bounds condition Go's runtime checks for the slice expression
MergeCommitSHA[:12] evaluated in CheckPR's "checking channels" debug log
(core.go line 100): slicing a string to 12 requires at least 12 bytes. -/
def checkPRDebugSliceOk (pr : PullRequest) : Bool :=
  decide (12 ≤ pr.mergeCommitSHA.utf8ByteSize)

/-! ## ParsePRInput (internal/config) -/

/-- Numeric value of a list of decimal digit characters. -/
def digitsVal (ds : List Char) : Nat :=
  ds.foldl (fun n c => 10 * n + (c.toNat - 48)) 0

/-- Go's strconv.Atoi: optional single sign, then one or more ASCII decimal
digits, value within the int64 range; anything else is an error (none). -/
def goAtoi (s : String) : Option Int :=
  match s.data with
  | [] => none
  | c :: rest =>
    let p : Bool × List Char :=
      if c = '+' then (false, rest)
      else if c = '-' then (true, rest)
      else (false, c :: rest)
    let neg := p.1
    let ds := p.2
    if ds = [] then none
    else if ds.all Char.isDigit then
      let v : Int := if neg then -(digitsVal ds : Int) else (digitsVal ds : Int)
      if -(2 ^ 63) ≤ v ∧ v ≤ 2 ^ 63 - 1 then some v else none
    else none

/-- Go's strconv.Atoi with the error ignored, as in the URL branches of
ParsePRInput (on a digits-only string, range overflow leaves the clamped
maximum int64 in the returned value). -/
def goAtoiClamped (ds : List Char) : Int :=
  min (digitsVal ds : Int) (2 ^ 63 - 1)

/-- The whitespace characters Go's strings.TrimSpace strips: unicode.IsSpace,
i.e. the Latin-1 spaces (TAB, LF, VT, FF, CR, SP, NEL, NBSP) plus the full
Unicode White_Space table (U+1680, U+2000-U+200A, U+2028, U+2029, U+202F,
U+205F, U+3000). -/
def isGoSpace (c : Char) : Bool :=
  c = ' ' ∨ c = '\t' ∨ c = '\n' ∨ c = '\u000b' ∨ c = '\u000c' ∨ c = '\r' ∨
    c = '\u0085' ∨ c = '\u00a0' ∨ c = '\u1680' ∨
    ('\u2000' ≤ c ∧ c ≤ '\u200a') ∨ c = '\u2028' ∨ c = '\u2029' ∨
    c = '\u202f' ∨ c = '\u205f' ∨ c = '\u3000'

/-- Go's strings.TrimSpace: drop leading and trailing whitespace. -/
def goTrimSpace (s : String) : String :=
  ⟨((s.data.dropWhile isGoSpace).reverse.dropWhile isGoSpace).reverse⟩

/-- Strip an expected leading character sequence; none when it does not
lead the list. -/
def stripLead : List Char → List Char → Option (List Char)
  | [], rest => some rest
  | _ :: _, [] => none
  | l :: ls, c :: cs => if c = l then stripLead ls cs else none

/-- Anchored match of one of the two URL regexes in internal/config:
the fixed leading part, then one or more digits, then an optional slash.
Returns the captured digit group. -/
def matchNumURL (lead : String) (s : String) : Option (List Char) :=
  match stripLead lead.data s.data with
  | none => none
  | some rest =>
    let rest := if rest.getLast? = some '/' then rest.dropLast else rest
    if rest ≠ [] ∧ rest.all Char.isDigit then some rest else none

/-- The fixed leading part of prURLRegex. -/
def prURLLead : String := "https://github.com/NixOS/nixpkgs/pull/"

/-- The fixed leading part of issueURLRegex. -/
def issueURLLead : String := "https://github.com/NixOS/nixpkgs/issues/"

/-- The error message of the non-positive branch of ParsePRInput. -/
def nonPositiveMsg : String := "PR number must be a positive integer"

/-- The error message of the final invalid-input branch of ParsePRInput. -/
def invalidInputMsg : String :=
  "invalid PR input: must be a number or https://github.com/NixOS/nixpkgs/pull/\x7bnumber\x7d"

/-- ParsePRInput from internal/config: trim, try Atoi (rejecting values
that are not positive), then the PR URL pattern, then the issue URL
pattern, else fail. -/
def ParsePRInput (input : String) : Except String Int :=
  let t := goTrimSpace input
  match goAtoi t with
  | some num => if num ≤ 0 then .error nonPositiveMsg else .ok num
  | none =>
    match matchNumURL prURLLead t with
    | some ds => .ok (goAtoiClamped ds)
    | none =>
      match matchNumURL issueURLLead t with
      | some ds => .ok (goAtoiClamped ds)
      | none => .error invalidInputMsg

/-! ## Timeline / RelatedPRFinder (internal/github/timeline.go) -/

/-- crossReferencePR from timeline.go: the PR-specific part of a cross
reference; only merged_at is parsed. -/
structure CrossReferencePR where
  mergedAt : Option String
  deriving DecidableEq, Repr

/-- crossReferenceRepository from timeline.go. -/
structure CrossReferenceRepository where
  fullName : String
  deriving DecidableEq, Repr

/-- crossReferenceIssue from timeline.go: the issue/PR that created the
cross-reference. -/
structure CrossReferenceIssue where
  number : Int
  title : String
  state : String
  htmlURL : String
  pullRequest : Option CrossReferencePR
  repository : Option CrossReferenceRepository
  deriving DecidableEq, Repr

/-- crossReferenceSource from timeline.go. -/
structure CrossReferenceSource where
  issue : Option CrossReferenceIssue
  deriving DecidableEq, Repr

/-- timelineEvent from timeline.go. -/
structure TimelineEvent where
  event : String
  source : Option CrossReferenceSource
  deriving DecidableEq, Repr

/-- RelatedPR from timeline.go. -/
structure RelatedPR where
  number : Int
  title : String
  url : String
  state : String
  deriving DecidableEq, Repr

/-- The state derivation in GetRelatedPRs (timeline.go lines 131-134):
merged when MergedAt is present and non-empty, otherwise the raw state. -/
def derivedState (issue : CrossReferenceIssue) (prInfo : CrossReferencePR) : String :=
  match prInfo.mergedAt with
  | some m => if m ≠ "" then "merged" else issue.state
  | none => issue.state

/-- The RelatedPR entry GetRelatedPRs appends for an accepted event. -/
def relatedEntry (issue : CrossReferenceIssue) (prInfo : CrossReferencePR) : RelatedPR :=
  { number := issue.number, title := issue.title, url := issue.htmlURL,
    state := derivedState issue prInfo }

/-- The body of the per-event loop in GetRelatedPRs (timeline.go lines
109-142), on the state (seen set, accumulated entries). -/
def processEvent (st : List Int × List RelatedPR) (ev : TimelineEvent) :
    List Int × List RelatedPR :=
  if ev.event ≠ "cross-referenced" then st
  else match ev.source with
  | none => st
  | some src =>
    match src.issue with
    | none => st
    | some issue =>
      match issue.pullRequest with
      | none => st
      | some prInfo =>
        if (match issue.repository with
            | some repo => repo.fullName != "NixOS/nixpkgs"
            | none => false) then st
        else if issue.number ∈ st.1 then st
        else (issue.number :: st.1, st.2 ++ [relatedEntry issue prInfo])

/-- The page loop of GetRelatedPRs: fetch a page, stop on fetch/parse
failure or an empty page, otherwise process its events and continue. -/
def getRelatedPRsLoop (fetchPage : Int → Except GHError (List TimelineEvent)) :
    Nat → Int → List Int × List RelatedPR → List RelatedPR
  | 0, _, st => st.2
  | fuel + 1, page, st =>
    match fetchPage page with
    | .error _ => st.2
    | .ok events =>
      if events = [] then st.2
      else getRelatedPRsLoop fetchPage fuel (page + 1) (events.foldl processEvent st)

/-- DefaultTimelinePages from timeline.go. -/
def DefaultTimelinePages : Int := 3

/-- GetRelatedPRs from timeline.go: page through the timeline (at most
maxPages pages, defaulting when maxPages is not positive), collecting
cross-referenced PRs.  The page fetch (request plus JSON parse) is the
oracle argument. -/
def GetRelatedPRs (fetchPage : Int → Except GHError (List TimelineEvent))
    (maxPages : Int) : List RelatedPR :=
  let mp := if maxPages ≤ 0 then DefaultTimelinePages else maxPages
  getRelatedPRsLoop fetchPage mp.toNat 1 ([], [])

/-! Specification-side companions for the refinement statement about
GetRelatedPRs, written from the spec's words in §4.3: accept an event iff
it is a cross reference carrying a pull-request marker and not belonging to
a different repository; stop paging on failure or an empty page; dedupe by
number, first occurrence winning, preserving discovery order. -/

/-- Modelled from the spec (§4.3 filter rules): the entry an event
contributes before deduplication, none when the event is skipped. -/
def specEventEntry (ev : TimelineEvent) : Option RelatedPR :=
  if ev.event ≠ "cross-referenced" then none
  else match ev.source with
  | none => none
  | some src =>
    match src.issue with
    | none => none
    | some issue =>
      match issue.pullRequest with
      | none => none
      | some prInfo =>
        if (match issue.repository with
            | some repo => repo.fullName != "NixOS/nixpkgs"
            | none => false) then none
        else some (relatedEntry issue prInfo)

/-- Modelled from the spec (§4.3 pagination): the pages actually consumed,
in order — stop at the fuel bound, a failed fetch, or an empty page. -/
def specPages (fetchPage : Int → Except GHError (List TimelineEvent)) :
    Nat → Int → List (List TimelineEvent)
  | 0, _ => []
  | fuel + 1, page =>
    match fetchPage page with
    | .error _ => []
    | .ok events =>
      if events = [] then [] else events :: specPages fetchPage fuel (page + 1)

/-- Modelled from the spec (§4.3 dedupe): drop entries whose number was
already seen; the first occurrence wins and order is preserved.  Returns
the final seen set and the deduplicated list. -/
def specDedupe (seen : List Int) : List RelatedPR → List Int × List RelatedPR
  | [] => (seen, [])
  | r :: rs =>
    if r.number ∈ seen then specDedupe seen rs
    else
      let p := specDedupe (r.number :: seen) rs
      (p.1, r :: p.2)

/-- The page budget GetRelatedPRs actually uses. -/
def pagesBudget (maxPages : Int) : Nat :=
  (if maxPages ≤ 0 then DefaultTimelinePages else maxPages).toNat

/-! ## GetPullRequest and disambiguateNotFound (internal/github/client.go) -/

/-- Issue from client.go (the pull_request marker parsed only for
presence). -/
structure Issue where
  number : Int
  title : String
  state : String
  htmlURL : String
  pullRequest : Option Unit
  deriving DecidableEq, Repr

/-- The error outcomes GetPullRequest can produce: the typed
NotFoundError and NotPullRequestError, the fmt.Errorf about token
permissions, or a propagated client error. -/
inductive PRError where
  | notFound (number : Int)
  | notPullRequest (number : Int) (title state url : String) (relatedPRs : List RelatedPR)
  | tokenPermissions (number : Int)
  | host (e : GHError)
  deriving DecidableEq, Repr

/-- The errors.As test used in client.go: is this error an APIError with
status 404. -/
def isNotFoundStatus : GHError → Bool
  | .apiError code _ => code == 404
  | _ => false

/-- disambiguateNotFound from client.go (lines 444-468): after a 404 from
the pulls endpoint, consult the issues endpoint (its outcome is the
getIssue oracle) and classify.  getRelated is the list GetRelatedPRs
returns for the issue (that call never fails). -/
def disambiguateNotFound (getIssue : Except GHError Issue)
    (getRelated : List RelatedPR) (number : Int) : PRError :=
  match getIssue with
  | .ok issue =>
    match issue.pullRequest with
    | none => .notPullRequest number issue.title issue.state issue.htmlURL getRelated
    | some _ => .tokenPermissions number
  | .error e =>
    if isNotFoundStatus e then .notFound number else .host e

/-- GetPullRequest from client.go (lines 405-423): fetch the PR (the
fetchPR oracle combines the request and the JSON parse); only a 404
triggers disambiguation, every other error propagates. -/
def GetPullRequest (fetchPR : Except GHError PullRequest)
    (getIssue : Except GHError Issue) (getRelated : List RelatedPR)
    (number : Int) : Except PRError PullRequest :=
  match fetchPR with
  | .ok pr => .ok pr
  | .error e =>
    if isNotFoundStatus e then .error (disambiguateNotFound getIssue getRelated number)
    else .error (.host e)

/-! ## Concrete fixtures used by the witness theorems -/

/-- Concrete compare oracle for the witnesses: master is at lag zero,
nixos-unstable fails with a network error, anything else lags behind. -/
def witnessCompare : String → String → Except GHError CompareResult := fun _ branch =>
  if branch = "nixos-unstable" then .error (.networkError "dial tcp: timeout")
  else if branch = "master" then .ok { status := "identical", aheadBy := 0, behindBy := 0 }
  else .ok { status := "diverged", aheadBy := 3, behindBy := 2 }

/-- Concrete merged PR for the witnesses. -/
def witnessMergedPR : PullRequest :=
  { number := 100, title := "fix build", state := "closed", draft := false,
    merged := true, mergeCommitSHA := "abc123def4567890", userLogin := "alice",
    baseRef := "master" }

/-- Concrete unmerged PR for the witnesses. -/
def witnessOpenPR : PullRequest :=
  { number := 101, title := "wip", state := "open", draft := false,
    merged := false, mergeCommitSHA := "", userLogin := "bob", baseRef := "master" }

/-- Concrete channel list for the witnesses. -/
def witnessChannels : List Channel :=
  [{ name := "staging-next", branch := "staging-next" },
   { name := "master", branch := "master" },
   { name := "nixos-unstable", branch := "nixos-unstable" }]

/-- A merged PR whose merge commit is non-empty but shorter than 12 bytes. -/
def shortSHAPR : PullRequest :=
  { number := 7, title := "tiny", state := "closed", draft := false, merged := true,
    mergeCommitSHA := "a", userLogin := "carol", baseRef := "master" }

/-- Concrete issue without a pull-request marker for the C4 witness. -/
def witnessIssue : Issue :=
  { number := 12345, title := "pkg broken", state := "open",
    htmlURL := "https://github.com/NixOS/nixpkgs/issues/12345", pullRequest := none }

/-- A cross-referenced PR that was merged (closed raw state, merge
timestamp present), used by the C5 witness. -/
def witnessXRefMerged : CrossReferenceIssue :=
  { number := 789012, title := "backport fix", state := "closed",
    htmlURL := "https://github.com/NixOS/nixpkgs/pull/789012",
    pullRequest := some { mergedAt := some "2024-05-01T00:00:00Z" },
    repository := some { fullName := "NixOS/nixpkgs" } }

/-- A cross-referenced PR that was closed without merging (no merge
timestamp, no repository field), used by the C5 and C9 witnesses. -/
def witnessXRefClosed : CrossReferenceIssue :=
  { number := 123456, title := "abandoned fix", state := "closed",
    htmlURL := "https://github.com/NixOS/nixpkgs/pull/123456",
    pullRequest := some { mergedAt := none },
    repository := none }

/-! ## Helper lemmas about the sort order -/

/-- Closed form of the merge-sort order: present entries are below
everything, and non-present entries compare by name. -/
theorem crLE_eq (a b : ChannelResult) :
    crLE a b = (if a.status = ChannelStatus.present then true
                else if b.status = ChannelStatus.present then false
                else !decide (b.name < a.name)) := by
  unfold crLE crLess
  cases ha : a.status <;> cases hb : b.status <;> simp [ha, hb]

/-- The merge-sort order is transitive. -/
theorem crLE_trans (a b c : ChannelResult) : crLE a b → crLE b c → crLE a c := by
  rw [crLE_eq, crLE_eq, crLE_eq]
  by_cases hap : a.status = ChannelStatus.present
  · simp [hap]
  · by_cases hbp : b.status = ChannelStatus.present
    · simp [hap, hbp]
    · by_cases hcp : c.status = ChannelStatus.present
      · simp [hap, hbp, hcp]
      · simp only [if_neg hap, if_neg hbp, if_neg hcp]
        intro h1 h2
        rw [Bool.not_eq_true', decide_eq_false_iff_not] at h1 h2 ⊢
        exact not_lt.mpr (le_trans (not_lt.mp h1) (not_lt.mp h2))

/-- The merge-sort order is total. -/
theorem crLE_total (a b : ChannelResult) : crLE a b || crLE b a := by
  rw [crLE_eq, crLE_eq]
  by_cases hap : a.status = ChannelStatus.present
  · simp [hap]
  · by_cases hbp : b.status = ChannelStatus.present
    · simp [hap, hbp]
    · simp only [if_neg hap, if_neg hbp]
      by_cases h : b.name < a.name
      · have h2 : decide (a.name < b.name) = false := decide_eq_false (asymm h)
        rw [h2]
        simp
      · have h1 : decide (b.name < a.name) = false := decide_eq_false h
        rw [h1]
        simp

/-- Any two present results are related by the sort order. -/
theorem crLE_of_present (a b : ChannelResult)
    (ha : a.status = ChannelStatus.present) : crLE a b := by
  rw [crLE_eq]
  simp [ha]

/-- The output of SortChannelResults is pairwise ordered by crLE. -/
theorem sortChannelResults_pairwise (l : List ChannelResult) :
    (SortChannelResults l).Pairwise (fun a b => crLE a b) :=
  List.sorted_mergeSort crLE_trans crLE_total l

/-- SortChannelResults permutes its input. -/
theorem sortChannelResults_perm (l : List ChannelResult) :
    (SortChannelResults l).Perm l :=
  List.mergeSort_perm l crLE

/-- Stability on the present tier: the present entries come out of
SortChannelResults exactly as they went in. -/
theorem sortChannelResults_filter_present (l : List ChannelResult) :
    (SortChannelResults l).filter (fun r => r.status == ChannelStatus.present)
      = l.filter (fun r => r.status == ChannelStatus.present) := by
  set p : ChannelResult → Bool := fun r => r.status == ChannelStatus.present with hp
  have hmem : ∀ r ∈ l.filter p, r.status = ChannelStatus.present := by
    intro r hr
    exact eq_of_beq (List.mem_filter.mp hr).2
  have hpair : (l.filter p).Pairwise (fun a b => crLE a b) := by
    apply List.pairwise_of_forall_mem_list
    intro a ha b _
    exact crLE_of_present a b (hmem a ha)
  have hsub : List.Sublist (l.filter p) (SortChannelResults l) := by
    unfold SortChannelResults
    exact List.sublist_mergeSort crLE_trans crLE_total hpair (List.filter_sublist l)
  have h1 : (l.filter p).filter p = l.filter p := by
    apply List.filter_eq_self.mpr
    intro a ha
    exact (List.mem_filter.mp ha).2
  have hsub2 : List.Sublist (l.filter p) ((SortChannelResults l).filter p) :=
    h1 ▸ hsub.filter p
  have hlen : ((SortChannelResults l).filter p).length = (l.filter p).length :=
    ((sortChannelResults_perm l).filter p).length_eq
  exact (hsub2.eq_of_length hlen.symm).symm

/-! ## Helper lemmas about checkChannel and CheckPR -/

/-- A non-empty string followed by anything is non-empty. -/
theorem append_ne_empty_of_left_ne_empty (s t : String) (h : s ≠ "") : s ++ t ≠ "" := by
  intro he
  apply h
  have h2 := congrArg String.data he
  rw [String.data_append] at h2
  rcases List.append_eq_nil.mp h2 with ⟨h3, _⟩
  cases s
  simp_all

/-- Every rendered client error message is non-empty (each fmt.Errorf /
APIError format string starts with a non-empty literal). -/
theorem GHError.render_ne_empty (e : GHError) : e.render ≠ "" := by
  cases e <;> simp only [GHError.render] <;>
    (repeat' apply append_ne_empty_of_left_ne_empty) <;> decide

/-- checkChannel yields Present exactly when the compare call succeeds
with a behind-by count of zero. -/
theorem checkChannel_present_iff
    (compare : String → String → Except GHError CompareResult)
    (commit : String) (ch : Channel) :
    (checkChannel compare commit ch).status = ChannelStatus.present ↔
      ∃ cmp, compare commit ch.branch = .ok cmp ∧ cmp.behindBy = 0 := by
  unfold checkChannel
  cases h : compare commit ch.branch with
  | error e => simp [h]
  | ok cmp =>
    by_cases hb : cmp.behindBy = 0 <;> simp [h, hb]

/-- checkChannel yields NotPresent on a successful compare with nonzero
behind-by count. -/
theorem checkChannel_notPresent
    (compare : String → String → Except GHError CompareResult)
    (commit : String) (ch : Channel) (cmp : CompareResult)
    (h : compare commit ch.branch = .ok cmp) (hb : cmp.behindBy ≠ 0) :
    (checkChannel compare commit ch).status = ChannelStatus.notPresent := by
  unfold checkChannel
  rw [h]
  simp [hb]

/-- checkChannel yields Unknown with a non-empty error message when the
compare call fails. -/
theorem checkChannel_unknown
    (compare : String → String → Except GHError CompareResult)
    (commit : String) (ch : Channel) (e : GHError)
    (h : compare commit ch.branch = .error e) :
    (checkChannel compare commit ch).status = ChannelStatus.unknown ∧
      (checkChannel compare commit ch).error ≠ "" := by
  unfold checkChannel
  rw [h]
  exact ⟨rfl, GHError.render_ne_empty e⟩

/-- C2: SortChannelResults returns a permutation of its input; present
entries precede all others and keep their input order among themselves;
non-present entries (NotPresent and Unknown alike) follow in ascending
alphabetical order by name. -/
theorem sortChannelResults_spec (l : List ChannelResult) :
    (SortChannelResults l).Perm l ∧
    (SortChannelResults l).filter (fun r => r.status == ChannelStatus.present)
      = l.filter (fun r => r.status == ChannelStatus.present) ∧
    (SortChannelResults l).Pairwise
      (fun a b => b.status = ChannelStatus.present → a.status = ChannelStatus.present) ∧
    (SortChannelResults l).Pairwise
      (fun a b => a.status ≠ ChannelStatus.present →
        b.status ≠ ChannelStatus.present ∧ a.name ≤ b.name) := by
  refine ⟨sortChannelResults_perm l, sortChannelResults_filter_present l, ?_, ?_⟩
  · refine (sortChannelResults_pairwise l).imp ?_
    intro a b hab hb
    rw [crLE_eq] at hab
    by_cases ha : a.status = ChannelStatus.present
    · exact ha
    · rw [if_neg ha, if_pos hb] at hab
      exact absurd hab (by simp)
  · refine (sortChannelResults_pairwise l).imp ?_
    intro a b hab ha
    rw [crLE_eq] at hab
    by_cases hb : b.status = ChannelStatus.present
    · rw [if_neg ha, if_pos hb] at hab
      exact absurd hab (by simp)
    · rw [if_neg ha, if_neg hb] at hab
      rw [Bool.not_eq_true', decide_eq_false_iff_not] at hab
      exact ⟨hb, not_lt.mp hab⟩

/-! ## Claims about CheckPR -/

/-- The report CheckPR produces on the merged path. -/
theorem checkPR_merged_run
    (compare : String → String → Except GHError CompareResult)
    (pr : PullRequest) (channels : List Channel)
    (hm : pr.merged = true) (hsha : pr.mergeCommitSHA ≠ "") :
    CheckPR compare pr channels =
      .ok { number := pr.number, title := pr.title, author := pr.userLogin,
            state := determinePRState pr, mergeCommit := pr.mergeCommitSHA,
            channels := SortChannelResults
              (channels.map (checkChannel compare pr.mergeCommitSHA)) } := by
  unfold CheckPR
  rw [hm]
  simp [hsha]

/-- The report CheckPR produces on the unmerged short-circuit path, for any
compare oracle. -/
theorem checkPR_unmerged_run
    (compare : String → String → Except GHError CompareResult)
    (pr : PullRequest) (channels : List Channel) (hm : pr.merged = false) :
    CheckPR compare pr channels =
      .ok { number := pr.number, title := pr.title, author := pr.userLogin,
            state := determinePRState pr, mergeCommit := pr.mergeCommitSHA,
            channels := SortChannelResults (channels.map fun ch =>
              { name := ch.name, branch := ch.branch,
                status := ChannelStatus.notPresent, error := "" }) } := by
  unfold CheckPR
  rw [hm]
  rfl

/-- C1: for a merged PR with a non-empty merge commit, CheckPR returns a
report (never an error) whose channel results are a permutation of the
per-channel outcomes; each channel is Present iff its own compare call
succeeded with behind-by exactly zero, NotPresent on a successful compare
with nonzero lag, and Unknown with a non-empty error message when its
compare call failed — each channel result depends only on that channel's
compare outcome, so sibling channels are unaffected. -/
theorem checkPR_merged_spec
    (compare : String → String → Except GHError CompareResult)
    (pr : PullRequest) (channels : List Channel)
    (hm : pr.merged = true) (hsha : pr.mergeCommitSHA ≠ "") :
    ∃ st, CheckPR compare pr channels = .ok st ∧
      st.channels.Perm (channels.map (checkChannel compare pr.mergeCommitSHA)) ∧
      ∀ ch ∈ channels,
        ((checkChannel compare pr.mergeCommitSHA ch).status = ChannelStatus.present ↔
          ∃ cmp, compare pr.mergeCommitSHA ch.branch = .ok cmp ∧ cmp.behindBy = 0) ∧
        (∀ cmp, compare pr.mergeCommitSHA ch.branch = .ok cmp → cmp.behindBy ≠ 0 →
          (checkChannel compare pr.mergeCommitSHA ch).status = ChannelStatus.notPresent) ∧
        (∀ e, compare pr.mergeCommitSHA ch.branch = .error e →
          (checkChannel compare pr.mergeCommitSHA ch).status = ChannelStatus.unknown ∧
          (checkChannel compare pr.mergeCommitSHA ch).error ≠ "") := by
  refine ⟨_, checkPR_merged_run compare pr channels hm hsha, sortChannelResults_perm _, ?_⟩
  intro ch _
  exact ⟨checkChannel_present_iff compare pr.mergeCommitSHA ch,
    fun cmp h hb => checkChannel_notPresent compare pr.mergeCommitSHA ch cmp h hb,
    fun e h => checkChannel_unknown compare pr.mergeCommitSHA ch e h⟩





/-- Witness for C1 at a concrete merged PR, channel list and oracle with
one failing channel. -/
theorem checkPR_merged_spec_witness :
    witnessMergedPR.merged = true ∧ witnessMergedPR.mergeCommitSHA ≠ "" ∧
    ∃ st, CheckPR witnessCompare witnessMergedPR witnessChannels = .ok st := by
  refine ⟨rfl, by decide, ?_⟩
  rcases checkPR_merged_spec witnessCompare witnessMergedPR witnessChannels rfl (by decide)
    with ⟨st, hst, _⟩
  exact ⟨st, hst⟩

/-- C3: for an unmerged PR, CheckPR succeeds with exactly one result per
requested channel, all NotPresent (never Unknown), and the result is the
same whatever the compare oracle does — no compare call is consulted. -/
theorem checkPR_unmerged_spec
    (compare : String → String → Except GHError CompareResult)
    (pr : PullRequest) (channels : List Channel) (hm : pr.merged = false) :
    ∃ st, CheckPR compare pr channels = .ok st ∧
      st.channels.length = channels.length ∧
      st.channels.Perm (channels.map fun ch =>
        { name := ch.name, branch := ch.branch,
          status := ChannelStatus.notPresent, error := "" }) ∧
      (∀ r ∈ st.channels, r.status = ChannelStatus.notPresent) ∧
      (∀ compare2 : String → String → Except GHError CompareResult,
        CheckPR compare2 pr channels = CheckPR compare pr channels) := by
  refine ⟨_, checkPR_unmerged_run compare pr channels hm, ?_, ?_, ?_, ?_⟩
  · rw [(sortChannelResults_perm _).length_eq, List.length_map]
  · exact sortChannelResults_perm _
  · intro r hr
    have hr2 := (sortChannelResults_perm _).mem_iff.mp hr
    rcases List.mem_map.mp hr2 with ⟨ch, _, hch⟩
    rw [← hch]
  · intro compare2
    rw [checkPR_unmerged_run compare2 pr channels hm,
      checkPR_unmerged_run compare pr channels hm]

/-- Witness for C3 at a concrete unmerged PR (and, via the theorem's
generality, also for the empty channel list). -/
theorem checkPR_unmerged_spec_witness :
    witnessOpenPR.merged = false ∧
    ∃ st, CheckPR witnessCompare witnessOpenPR witnessChannels = .ok st ∧
      st.channels.length = witnessChannels.length := by
  refine ⟨rfl, ?_⟩
  rcases checkPR_unmerged_spec witnessCompare witnessOpenPR witnessChannels rfl
    with ⟨st, hst, hlen, _⟩
  exact ⟨st, hst, hlen⟩

/-- C10: the unmerged short-circuit path also routes its all-NotPresent
results through the sort, so the report's channels come out in ascending
alphabetical order by name (not in input order). -/
theorem checkPR_unmerged_sorted
    (compare : String → String → Except GHError CompareResult)
    (pr : PullRequest) (channels : List Channel) (hm : pr.merged = false) :
    ∃ st, CheckPR compare pr channels = .ok st ∧
      st.channels.Perm (channels.map fun ch =>
        { name := ch.name, branch := ch.branch,
          status := ChannelStatus.notPresent, error := "" }) ∧
      st.channels.Pairwise (fun a b => a.name ≤ b.name) := by
  refine ⟨_, checkPR_unmerged_run compare pr channels hm, sortChannelResults_perm _, ?_⟩
  have hmem : ∀ r ∈ SortChannelResults (channels.map fun ch =>
      { name := ch.name, branch := ch.branch,
        status := ChannelStatus.notPresent, error := "" : ChannelResult }),
      r.status = ChannelStatus.notPresent := by
    intro r hr
    have hr2 := (sortChannelResults_perm _).mem_iff.mp hr
    rcases List.mem_map.mp hr2 with ⟨ch, _, hch⟩
    rw [← hch]
  refine (sortChannelResults_pairwise _).imp_of_mem ?_
  intro a b ha hb hab
  rw [crLE_eq] at hab
  rw [if_neg (by rw [hmem a ha]; intro h; cases h),
    if_neg (by rw [hmem b hb]; intro h; cases h)] at hab
  rw [Bool.not_eq_true', decide_eq_false_iff_not] at hab
  exact not_lt.mp hab

/-- Witness for C10: three channels given in non-alphabetical order. -/
theorem checkPR_unmerged_sorted_witness :
    witnessOpenPR.merged = false ∧
    ∃ st, CheckPR witnessCompare witnessOpenPR witnessChannels = .ok st ∧
      st.channels.Pairwise (fun a b => a.name ≤ b.name) := by
  refine ⟨rfl, ?_⟩
  rcases checkPR_unmerged_sorted witnessCompare witnessOpenPR witnessChannels rfl
    with ⟨st, hst, _, hsort⟩
  exact ⟨st, hst, hsort⟩

/-! ## Claim about the debug-log slice bound (C8) -/

/-- Every character occupies at least one UTF-8 byte, so a string has at
least as many bytes as characters. -/
theorem length_le_utf8ByteSize (s : String) : s.length ≤ s.utf8ByteSize := by
  cases s with
  | mk data =>
    induction data with
    | nil => exact Nat.le_refl 0
    | cons c cs ih =>
      have hc := Char.utf8Size_pos c
      simp only [String.utf8ByteSize, String.utf8ByteSize.go, String.length,
        List.length_cons] at *
      omega


/-- C8 counterexample: a merged PR with a non-empty merge-commit string for
which the 12-byte slice taken by CheckPR's debug log is out of bounds —
non-emptiness does not put MergeCommitSHA[:12] within bounds. -/
theorem checkPRDebugSlice_counterexample :
    shortSHAPR.merged = true ∧ shortSHAPR.mergeCommitSHA ≠ "" ∧
      checkPRDebugSliceOk shortSHAPR = false := by
  refine ⟨rfl, by decide, by decide⟩

/-- C8 amended: the debug-log slice MergeCommitSHA[:12] is within bounds
whenever the merge-commit string has at least 12 characters (hence for the
40-hex-character SHAs the host returns); the guard in the code only rules
out the empty string, so a non-empty commit shorter than 12 bytes would
make the slice out of range. -/
theorem checkPRDebugSlice_amended (pr : PullRequest)
    (h : 12 ≤ pr.mergeCommitSHA.length) : checkPRDebugSliceOk pr = true := by
  unfold checkPRDebugSliceOk
  exact decide_eq_true (le_trans h (length_le_utf8ByteSize _))

/-- Witness for the amended C8 at a 16-character merge commit. -/
theorem checkPRDebugSlice_amended_witness :
    12 ≤ witnessMergedPR.mergeCommitSHA.length ∧
      checkPRDebugSliceOk witnessMergedPR = true :=
  ⟨by decide, checkPRDebugSlice_amended witnessMergedPR (by decide)⟩

/-! ## Claim about ParsePRInput (C7) -/

/-- On a non-empty all-digits string within the int64 range, Atoi returns
the digits' value. -/
theorem goAtoi_of_digits (t : String) (hne : t.data ≠ [])
    (hall : t.data.all Char.isDigit)
    (hrange : (digitsVal t.data : Int) ≤ 2 ^ 63 - 1) :
    goAtoi t = some ((digitsVal t.data : Int)) := by
  unfold goAtoi
  cases hd : t.data with
  | nil => exact absurd hd hne
  | cons c rest =>
    rw [hd] at hall hrange
    have hcd : c.isDigit = true := by
      simp only [List.all_cons, Bool.and_eq_true] at hall
      exact hall.1
    have hplus : ¬ c = '+' := fun h => by rw [h] at hcd; exact absurd hcd (by decide)
    have hminus : ¬ c = '-' := fun h => by rw [h] at hcd; exact absurd hcd (by decide)
    have hall2 : (c :: rest).all Char.isDigit = true := hall
    simp only [hplus, hminus, if_false, ite_false, if_neg]
    simp [hplus, hminus, hall2]
    constructor
    · exact le_trans (by norm_num) (Int.natCast_nonneg _)
    · have h2 : (digitsVal (c :: rest) : Int) ≤ 9223372036854775807 :=
        le_trans hrange (by norm_num)
      exact_mod_cast h2

/-- C7: a trimmed input that is a parseable string of decimal digits with
value greater than zero resolves to exactly that integer; a trimmed input
Atoi parses to zero or a negative integer is rejected; and a non-numeric
input matching neither the PR URL pattern nor the issue URL pattern is
rejected with the invalid-input error. -/
theorem parsePRInput_spec (s : String) :
    ((goTrimSpace s).data ≠ [] → (goTrimSpace s).data.all Char.isDigit →
      0 < digitsVal (goTrimSpace s).data →
      (digitsVal (goTrimSpace s).data : Int) ≤ 2 ^ 63 - 1 →
      ParsePRInput s = .ok ((digitsVal (goTrimSpace s).data : Int))) ∧
    (∀ n : Int, goAtoi (goTrimSpace s) = some n → n ≤ 0 →
      ParsePRInput s = .error nonPositiveMsg) ∧
    (goAtoi (goTrimSpace s) = none →
      matchNumURL prURLLead (goTrimSpace s) = none →
      matchNumURL issueURLLead (goTrimSpace s) = none →
      ParsePRInput s = .error invalidInputMsg) := by
  refine ⟨?_, ?_, ?_⟩
  · intro hne hall hpos hrange
    have hsome := goAtoi_of_digits (goTrimSpace s) hne hall hrange
    unfold ParsePRInput
    simp only [hsome]
    rw [if_neg (not_le.mpr (Int.natCast_pos.mpr hpos))]
  · intro n hsome hn
    unfold ParsePRInput
    simp only [hsome]
    rw [if_pos hn]
  · intro h1 h2 h3
    unfold ParsePRInput
    simp only [h1, h2, h3]

/-- Witness for C7 at the inputs "42" (positive digits), "0" (numeric but
not positive) and "x" (non-numeric, matching neither URL pattern). -/
theorem parsePRInput_spec_witness :
    ((goTrimSpace "42").data ≠ [] ∧
      ParsePRInput "42" = .ok ((digitsVal (goTrimSpace "42").data : Int))) ∧
    (goAtoi (goTrimSpace "0") = some 0 ∧ ParsePRInput "0" = .error nonPositiveMsg) ∧
    (goAtoi (goTrimSpace "x") = none ∧ ParsePRInput "x" = .error invalidInputMsg) := by
  refine ⟨⟨by decide, (parsePRInput_spec "42").1 (by decide) (by decide) (by decide) (by decide)⟩,
    ⟨by decide, (parsePRInput_spec "0").2.1 0 (by decide) (by decide)⟩,
    ⟨by decide, (parsePRInput_spec "x").2.2 (by decide) (by decide) (by decide)⟩⟩

/-! ## Claim about GetPullRequest / disambiguateNotFound (C4) -/

/-- C4: after a not-found from the pulls endpoint, exactly the issue
lookup's outcome decides the result: a genuine issue (no pull-request
marker) maps to the issue-mismatch error carrying the issue's fields and
the related PRs, where a failed related-PR fetch degrades to the empty
list and never to an error; an issue with a pull-request marker maps to
the distinct token-permissions error; a not-found issue lookup maps to
NotFound; any other issue-lookup error propagates unchanged; and a
non-not-found error from the original PR lookup propagates with no
disambiguation — the result does not depend on the issue or related-PR
oracles at all. -/
theorem getPullRequest_notFound_spec (number : Int) :
    (∀ (issue : Issue) (rel : List RelatedPR) (e404 : GHError),
      isNotFoundStatus e404 = true → issue.pullRequest = none →
      GetPullRequest (.error e404) (.ok issue) rel number =
        .error (.notPullRequest number issue.title issue.state issue.htmlURL rel)) ∧
    (∀ (fetchPage : Int → Except GHError (List TimelineEvent)) (maxPages : Int)
      (efetch : GHError), fetchPage 1 = .error efetch →
      GetRelatedPRs fetchPage maxPages = []) ∧
    (∀ (issue : Issue) (rel : List RelatedPR) (e404 : GHError) (u : Unit),
      isNotFoundStatus e404 = true → issue.pullRequest = some u →
      GetPullRequest (.error e404) (.ok issue) rel number =
        .error (.tokenPermissions number)) ∧
    (∀ (rel : List RelatedPR) (e404 eIssue : GHError),
      isNotFoundStatus e404 = true → isNotFoundStatus eIssue = true →
      GetPullRequest (.error e404) (.error eIssue) rel number =
        .error (.notFound number)) ∧
    (∀ (rel : List RelatedPR) (e404 eIssue : GHError),
      isNotFoundStatus e404 = true → isNotFoundStatus eIssue = false →
      GetPullRequest (.error e404) (.error eIssue) rel number =
        .error (.host eIssue)) ∧
    (∀ (e : GHError) (gi gi2 : Except GHError Issue) (rel rel2 : List RelatedPR),
      isNotFoundStatus e = false →
      GetPullRequest (.error e) gi rel number = .error (.host e) ∧
      GetPullRequest (.error e) gi rel number =
        GetPullRequest (.error e) gi2 rel2 number) := by
  refine ⟨?_, ?_, ?_, ?_, ?_, ?_⟩
  · intro issue rel e404 h404 hiss
    simp [GetPullRequest, disambiguateNotFound, h404, hiss]
  · intro fetchPage maxPages efetch hfetch
    show getRelatedPRsLoop fetchPage
      (if maxPages ≤ 0 then DefaultTimelinePages else maxPages).toNat 1 ([], []) = []
    cases hfuel : (if maxPages ≤ 0 then DefaultTimelinePages else maxPages).toNat with
    | zero => rfl
    | succ n => simp [getRelatedPRsLoop, hfetch]
  · intro issue rel e404 u h404 hiss
    simp [GetPullRequest, disambiguateNotFound, h404, hiss]
  · intro rel e404 eIssue h404 hIssue
    simp [GetPullRequest, disambiguateNotFound, h404, hIssue]
  · intro rel e404 eIssue h404 hIssue
    simp [GetPullRequest, disambiguateNotFound, h404, hIssue]
  · intro e gi gi2 rel rel2 he
    constructor
    · simp [GetPullRequest, he]
    · simp [GetPullRequest, he]


/-- Witness for C4: a 404 on the pulls endpoint, a genuine issue on the
issues endpoint, and a related-PR fetch that fails on its first page. -/
theorem getPullRequest_notFound_spec_witness :
    isNotFoundStatus (GHError.apiError 404 "Not Found") = true ∧
    witnessIssue.pullRequest = none ∧
    GetRelatedPRs (fun _ => .error (.networkError "dial tcp: timeout")) 3 = [] ∧
    GetPullRequest (.error (GHError.apiError 404 "Not Found")) (.ok witnessIssue) [] 12345 =
      .error (.notPullRequest 12345 witnessIssue.title witnessIssue.state
        witnessIssue.htmlURL []) := by
  refine ⟨rfl, rfl, ?_, ?_⟩
  · exact (getPullRequest_notFound_spec 12345).2.1
      (fun _ => .error (.networkError "dial tcp: timeout")) 3
      (.networkError "dial tcp: timeout") rfl
  · exact (getPullRequest_notFound_spec 12345).1 witnessIssue []
      (GHError.apiError 404 "Not Found") rfl rfl

/-! ## Helper lemmas about GetRelatedPRs -/

/-- One loop step of GetRelatedPRs, expressed through the spec-side event
filter: skipped events leave the state alone, accepted events are appended
unless their number was already seen. -/
theorem processEvent_eq (st : List Int × List RelatedPR) (ev : TimelineEvent) :
    processEvent st ev =
      match specEventEntry ev with
      | none => st
      | some r => if r.number ∈ st.1 then st else (r.number :: st.1, st.2 ++ [r]) := by
  unfold processEvent specEventEntry
  repeat' (first | rfl | split)

/-- Folding the event loop over a page equals deduplicating the page's
accepted entries against the seen set. -/
theorem foldl_processEvent_eq (events : List TimelineEvent) (seen : List Int)
    (acc : List RelatedPR) :
    events.foldl processEvent (seen, acc) =
      ((specDedupe seen (events.filterMap specEventEntry)).1,
        acc ++ (specDedupe seen (events.filterMap specEventEntry)).2) := by
  induction events generalizing seen acc with
  | nil => simp [specDedupe]
  | cons ev evs ih =>
    rw [List.foldl_cons, processEvent_eq]
    cases he : specEventEntry ev with
    | none => simp [List.filterMap_cons, he, ih]
    | some r =>
      by_cases hmem : r.number ∈ seen
      · simp only [if_pos hmem]
        rw [ih]
        simp [List.filterMap_cons, he, specDedupe, hmem]
      · simp only [if_neg hmem]
        rw [ih]
        simp [List.filterMap_cons, he, specDedupe, hmem, List.append_assoc]

/-- specDedupe distributes over append, threading the seen set. -/
theorem specDedupe_append (seen : List Int) (l1 l2 : List RelatedPR) :
    specDedupe seen (l1 ++ l2) =
      ((specDedupe (specDedupe seen l1).1 l2).1,
        (specDedupe seen l1).2 ++ (specDedupe (specDedupe seen l1).1 l2).2) := by
  induction l1 generalizing seen with
  | nil => simp [specDedupe]
  | cons r rs ih =>
    by_cases hmem : r.number ∈ seen
    · simp [specDedupe, hmem, ih]
    · simp [specDedupe, hmem, ih]

/-- The page loop equals deduplicating the accepted entries of all pages
actually consumed, in page order. -/
theorem getRelatedPRsLoop_eq (fetchPage : Int → Except GHError (List TimelineEvent))
    (fuel : Nat) (page : Int) (seen : List Int) (acc : List RelatedPR) :
    getRelatedPRsLoop fetchPage fuel page (seen, acc) =
      acc ++ (specDedupe seen
        (((specPages fetchPage fuel page).flatten).filterMap specEventEntry)).2 := by
  induction fuel generalizing page seen acc with
  | zero => simp [getRelatedPRsLoop, specPages, specDedupe]
  | succ n ih =>
    cases hf : fetchPage page with
    | error e => simp [getRelatedPRsLoop, specPages, hf, specDedupe]
    | ok events =>
      by_cases hemp : events = []
      · subst hemp
        simp [getRelatedPRsLoop, specPages, hf, specDedupe]
      · simp only [getRelatedPRsLoop, specPages, hf, if_neg hemp]
        rw [foldl_processEvent_eq events seen acc, ih]
        simp [List.filterMap_append, specDedupe_append, List.append_assoc]

/-- GetRelatedPRs equals the spec-side composition: flatten the consumed
pages, filter to accepted cross-reference entries, dedupe by number with
first occurrence winning. -/
theorem getRelatedPRs_eq (fetchPage : Int → Except GHError (List TimelineEvent))
    (maxPages : Int) :
    GetRelatedPRs fetchPage maxPages =
      (specDedupe [] (((specPages fetchPage (pagesBudget maxPages) 1).flatten).filterMap
        specEventEntry)).2 := by
  show getRelatedPRsLoop fetchPage
      (if maxPages ≤ 0 then DefaultTimelinePages else maxPages).toNat 1 ([], []) = _
  rw [getRelatedPRsLoop_eq]
  simp [pagesBudget]

/-- The deduplicated list has pairwise distinct numbers, none of them in
the initial seen set. -/
theorem specDedupe_nodup (l : List RelatedPR) (seen : List Int) :
    ((specDedupe seen l).2.map (fun r => r.number)).Nodup ∧
      ∀ r ∈ (specDedupe seen l).2, r.number ∉ seen := by
  induction l generalizing seen with
  | nil => simp [specDedupe]
  | cons r rs ih =>
    by_cases hmem : r.number ∈ seen
    · simp only [specDedupe, if_pos hmem]
      exact ih seen
    · obtain ⟨ih1, ih2⟩ := ih (r.number :: seen)
      simp only [specDedupe, if_neg hmem]
      constructor
      · simp only [List.map_cons, List.nodup_cons]
        refine ⟨?_, ih1⟩
        intro hmem2
        rcases List.mem_map.mp hmem2 with ⟨x, hx, hxn⟩
        exact (ih2 x hx) (hxn ▸ List.mem_cons_self r.number seen)
      · intro x hx
        rcases List.mem_cons.mp hx with h | h
        · subst h
          exact hmem
        · intro hxs
          exact (ih2 x h) (List.mem_cons_of_mem _ hxs)

/-- Every deduplicated entry comes from the input list. -/
theorem specDedupe_subset (l : List RelatedPR) (seen : List Int) (r : RelatedPR)
    (h : r ∈ (specDedupe seen l).2) : r ∈ l := by
  induction l generalizing seen with
  | nil => simp [specDedupe] at h
  | cons x xs ih =>
    by_cases hmem : x.number ∈ seen
    · simp only [specDedupe, if_pos hmem] at h
      exact List.mem_cons_of_mem _ (ih _ h)
    · simp only [specDedupe, if_neg hmem] at h
      rcases List.mem_cons.mp h with h2 | h2
      · subst h2
        exact List.mem_cons_self _ _
      · exact List.mem_cons_of_mem _ (ih _ h2)

/-- An accepted entry always carries a pull-request marker and is built by
relatedEntry from its source record. -/
theorem specEventEntry_shape (ev : TimelineEvent) (r : RelatedPR)
    (h : specEventEntry ev = some r) :
    ∃ issue prInfo, issue.pullRequest = some prInfo ∧ r = relatedEntry issue prInfo := by
  unfold specEventEntry at h
  repeat' split at h
  all_goals try cases h
  rename_i x1 issue heq1 x2 prInfo heq hlast
  exact ⟨issue, prInfo, heq, rfl⟩

/-! ## Claims about GetRelatedPRs (C5, C6, C9) -/

/-- C6: the related-PR finder returns exactly the accepted cross-reference
entries of the consumed pages, flattened in page order then within-page
order, deduplicated by number with the first occurrence winning — so the
output is in discovery order, contains only entries with a pull-request
marker from the tracked repository (specEventEntry accepts no others), and
carries pairwise distinct PR numbers; in particular two events naming the
same number, even on different pages, contribute one entry. -/
theorem getRelatedPRs_spec (fetchPage : Int → Except GHError (List TimelineEvent))
    (maxPages : Int) :
    GetRelatedPRs fetchPage maxPages =
      (specDedupe [] (((specPages fetchPage (pagesBudget maxPages) 1).flatten).filterMap
        specEventEntry)).2 ∧
    ((GetRelatedPRs fetchPage maxPages).map (fun r => r.number)).Nodup := by
  refine ⟨getRelatedPRs_eq fetchPage maxPages, ?_⟩
  rw [getRelatedPRs_eq fetchPage maxPages]
  exact (specDedupe_nodup _ _).1

/-- C5: the state attached to an accepted related PR is derived by
treating a present non-empty merge timestamp as "merged" regardless of the
raw state, and passing the raw state through verbatim when the timestamp
is absent or empty; every entry the finder returns is built this way from
its source event. -/
theorem relatedPR_state_spec :
    (∀ (issue : CrossReferenceIssue) (prInfo : CrossReferencePR) (m : String),
      prInfo.mergedAt = some m → m ≠ "" → derivedState issue prInfo = "merged") ∧
    (∀ (issue : CrossReferenceIssue) (prInfo : CrossReferencePR),
      prInfo.mergedAt = none ∨ prInfo.mergedAt = some "" →
      derivedState issue prInfo = issue.state) ∧
    (∀ (issue : CrossReferenceIssue) (prInfo : CrossReferencePR),
      (relatedEntry issue prInfo).state = derivedState issue prInfo) ∧
    (∀ (fetchPage : Int → Except GHError (List TimelineEvent)) (maxPages : Int)
      (r : RelatedPR), r ∈ GetRelatedPRs fetchPage maxPages →
      ∃ issue prInfo, issue.pullRequest = some prInfo ∧ r = relatedEntry issue prInfo) := by
  refine ⟨?_, ?_, fun _ _ => rfl, ?_⟩
  · intro issue prInfo m hm hne
    simp [derivedState, hm, hne]
  · intro issue prInfo h
    rcases h with h | h <;> simp [derivedState, h]
  · intro fetchPage maxPages r hr
    rw [getRelatedPRs_eq] at hr
    have hr2 := specDedupe_subset _ _ _ hr
    rcases List.mem_filterMap.mp hr2 with ⟨ev, _, hev⟩
    exact specEventEntry_shape ev r hev



/-- Witness for C5: merged-at set and raw state "closed" derives "merged";
no merged-at and raw state "closed" stays "closed". -/
theorem relatedPR_state_spec_witness :
    derivedState witnessXRefMerged { mergedAt := some "2024-05-01T00:00:00Z" } = "merged" ∧
    derivedState witnessXRefClosed { mergedAt := none } = "closed" := by
  constructor
  · exact relatedPR_state_spec.1 witnessXRefMerged _ "2024-05-01T00:00:00Z" rfl (by decide)
  · exact relatedPR_state_spec.2.1 witnessXRefClosed { mergedAt := none } (Or.inl rfl)

/-- C9: the different-repository filter only fires when a repository field
is present; a cross-referenced PR event whose source record has no
repository field is included in the results, not skipped. -/
theorem getRelatedPRs_noRepository_included (issue : CrossReferenceIssue)
    (prInfo : CrossReferencePR) (hpr : issue.pullRequest = some prInfo)
    (hrepo : issue.repository = none) :
    GetRelatedPRs
      (fun page => if page = 1
        then .ok [{ event := "cross-referenced", source := some { issue := some issue } }]
        else .ok []) 1 = [relatedEntry issue prInfo] := by
  simp only [GetRelatedPRs]
  norm_num
  simp [getRelatedPRsLoop, processEvent, hpr, hrepo]

/-- Witness for C9 at a concrete repository-less cross-reference event. -/
theorem getRelatedPRs_noRepository_included_witness :
    witnessXRefClosed.pullRequest = some { mergedAt := none } ∧
    witnessXRefClosed.repository = none ∧
    GetRelatedPRs
      (fun page => if page = 1
        then .ok [{ event := "cross-referenced",
                    source := some { issue := some witnessXRefClosed } }]
        else .ok []) 1 = [relatedEntry witnessXRefClosed { mergedAt := none }] :=
  ⟨rfl, rfl, getRelatedPRs_noRepository_included witnessXRefClosed { mergedAt := none } rfl rfl⟩

end Nprt
